import Mathlib

namespace Img2Reel

/- Shallow embedding of the img2reel server (server.js, latest revision,
together with config.js). Pure helpers are translated directly; the
filesystem effects of the request handlers are made explicit by threading a
state that records the temporary files and the files of the output
directory; the outcome of each external step (network download, encoder
run) is passed in as data so that every branch of the handlers can be
examined. -/

/-- Does the character list start with the given needle. -/
def startsWithSeq : List Char → List Char → Bool
  | _, [] => true
  | [], _ :: _ => false
  | c :: cs, d :: ds => c == d && startsWithSeq cs ds

/-- Does the character list contain the needle as a contiguous block. -/
def containsSeq : List Char → List Char → Bool
  | [], needle => needle.isEmpty
  | c :: rest, needle => startsWithSeq (c :: rest) needle || containsSeq rest needle

/-- Substring containment test over strings, modelling the JavaScript
includes method. -/
def hasSub (s needle : String) : Bool :=
  containsSeq s.data needle.data

/-- ASCII lowercasing of a string, modelling the JavaScript toLowerCase
method on the header and extension values the server handles. -/
def lowerStr (s : String) : String :=
  String.mk (s.data.map Char.toLower)

/-- Whitespace test used by the trim model. -/
def isSpaceChar (c : Char) : Bool :=
  c == ' ' || c == '\t' || c == '\n' || c == '\r'

/-- JavaScript trim over a character list. -/
def trimChars (cs : List Char) : List Char :=
  ((cs.dropWhile isSpaceChar).reverse.dropWhile isSpaceChar).reverse

/-- The first semicolon separated field of a header value, trimmed: the
JavaScript expression value.split(";")[0].trim(). -/
def contentTypeOf (rawLower : String) : String :=
  String.mk (trimChars (rawLower.data.takeWhile (fun c => c != ';')))

/-- Numeric value of a decimal digit character. -/
def digitVal (c : Char) : Nat := c.toNat - 48

/-- Radix ten parseInt from JavaScript: leading whitespace is skipped, an
optional sign is read, then the maximal run of leading decimal digits; none
models the NaN result produced when no digit is read. -/
def jsParseInt (s : String) : Option Int :=
  let cs := s.data.dropWhile (fun c => c == ' ' || c == '\t' || c == '\n' || c == '\r')
  let signRest : Bool × List Char :=
    match cs with
    | '-' :: r => (true, r)
    | '+' :: r => (false, r)
    | r => (false, r)
  let ds := signRest.2.takeWhile (fun c => c.isDigit)
  if ds.isEmpty then none
  else
    let n : Nat := ds.foldl (fun a c => a * 10 + digitVal c) 0
    some (if signRest.1 then -(n : Int) else (n : Int))

/-- JavaScript Math.max against a constant bound; none models NaN, which
Math.max propagates. -/
def jsMax (x : Option Int) (b : Int) : Option Int :=
  x.map (fun v => max v b)

/-- JavaScript Math.min against a constant bound; none models NaN, which
Math.min propagates. -/
def jsMin (x : Option Int) (b : Int) : Option Int :=
  x.map (fun v => min v b)

/-- The JavaScript expression q.param or-else default: an absent parameter
and the empty string are both falsy and fall back to the default. -/
def orDefault (q : Option String) (d : String) : String :=
  match q with
  | some s => if s = "" then d else s
  | none => d

/-- Normalized request parameters, as produced by parseParams in server.js.
Each field is an Option Int so that the NaN produced by parseInt on
non-numeric input can be represented faithfully. -/
structure Params where
  duration : Option Int
  fps : Option Int
  width : Option Int
  height : Option Int
deriving DecidableEq, Repr

/-- parseParams from server.js: duration is clamped to the interval from 1
to 90, fps to 1 to 60, width and height are parsed with defaults 1080 and
1920 and no clamping. -/
def parseParams (qDuration qFps qWidth qHeight : Option String) : Params :=
  { duration := jsMin (jsMax (jsParseInt (orDefault qDuration "20")) 1) 90
    fps := jsMin (jsMax (jsParseInt (orDefault qFps "30")) 1) 60
    width := jsParseInt (orDefault qWidth "1080")
    height := jsParseInt (orDefault qHeight "1920") }

/-- The content type allow list of server.js. -/
def allowedContentTypes : List String := ["image/jpeg", "image/jpg", "image/png"]

/-- The extension allow list of server.js. -/
def allowedExts : List String := [".jpg", ".jpeg", ".png"]

/-- pickExtFromCT from server.js: an empty content type gives null, a
content type containing jpeg or jpg maps to the jpg extension, one
containing png maps to the png extension, anything else gives null. -/
def pickExtFromCT (ct : String) : Option String :=
  if ct.data.isEmpty then none
  else
    let c := lowerStr ct
    if hasSub c "jpeg" || hasSub c "jpg" then some ".jpg"
    else if hasSub c "png" then some ".png"
    else none

/-- JavaScript path.extname applied to a URL pathname: the part of the last
path segment from its final dot onward, or empty when the segment has no
dot or only a leading dot. -/
def extnameOf (pathname : String) : String :=
  let cs := (pathname.data.reverse.takeWhile (fun c => c != '/')).reverse
  let dotIdxs := (List.range cs.length).filter (fun i => cs.getD i ' ' == '.')
  match dotIdxs.getLast? with
  | none => ""
  | some i => if i = 0 then "" else String.mk (cs.drop i)

/-- pickExtFromURL from server.js, parameterized by the parsed URL pathname
(none models a URL that fails to parse, which the catch turns into null):
the lowercased extension of the pathname when it is allow listed. -/
def pickExtFromURL (pathname : Option String) : Option String :=
  match pathname with
  | none => none
  | some p =>
    let ext := lowerStr (extnameOf p)
    if allowedExts.contains ext then some ext else none

/-- Outcome of the validation portion of a downloader. -/
inductive FetchCheck where
  | rejected (msg : String)
  | accepted (ext : String)
deriving DecidableEq, Repr

/-- True on the accepted constructor. -/
def FetchCheck.isAccepted : FetchCheck → Bool
  | .accepted _ => true
  | .rejected _ => false

/-- The content type and extension validation of downloadPngOrJpgStream in
server.js: the raw content type header is lowercased, its first semicolon
separated field is compared against the allow list; when it is not allow
listed the URL extension alone decides whether to continue; then the
extension is chosen from the content type first and the URL second. -/
def streamValidate (rawCT : String) (pathname : Option String) : FetchCheck :=
  let raw := lowerStr rawCT
  let contentType := contentTypeOf raw
  if !(allowedContentTypes.contains contentType) && (pickExtFromURL pathname).isNone then
    .rejected ("Only PNG or JPG URLs are allowed (got content-type=\"" ++
      (if raw.data.isEmpty then "unknown" else raw) ++ "\").")
  else
    let ext : Option String :=
      match pickExtFromCT raw with
      | some e => some e
      | none => pickExtFromURL pathname
    match ext with
    | some e => .accepted e
    | none => .rejected "Only PNG or JPG URLs are allowed."

/-- The content type and extension validation of downloadPngOrJpgByBuffer in
server.js: the extension is chosen from the content type first and the URL
second; the request is rejected when no extension is found, or when the
content type maps to an extension but the full lowercased header is not in
the allow list. -/
def bufferValidate (rawCT : String) (pathname : Option String) : FetchCheck :=
  let c := lowerStr rawCT
  let byCT := pickExtFromCT c
  let ext : Option String :=
    match byCT with
    | some e => some e
    | none => pickExtFromURL pathname
  match ext with
  | none =>
    .rejected ("Only PNG or JPG URLs are allowed (got content-type=\"" ++
      (if c.data.isEmpty then "unknown" else c) ++ "\").")
  | some e =>
    if byCT.isSome && !(allowedContentTypes.contains c) then
      .rejected ("Only PNG or JPG URLs are allowed (got content-type=\"" ++
        (if c.data.isEmpty then "unknown" else c) ++ "\").")
    else .accepted e

/-- Default value of the MAX_IMAGE_BYTES configuration constant. -/
def MAX_IMAGE_BYTES : Nat := 25 * 1024 * 1024

/-- The size error message used by both downloaders. -/
def sizeMsg (n cap : Nat) : String := s!"Image too large: {n} bytes (limit {cap})."

/-- The error attached to the destroyed stream when the cap is exceeded. -/
def abortMsg (cap : Nat) : String := s!"Image exceeds max size of {cap} bytes."

/-- The byte counting loop of the streamed downloader: chunks are consumed
in order while a running total is kept, and the transfer aborts as soon as
the total exceeds the cap. Returns the bytes written to the partial file,
the number of chunks consumed, and the abort flag. -/
def streamWriteLoop (cap : Nat) : List Nat → Nat → Nat × Nat × Bool
  | [], acc => (acc, 0, false)
  | c :: rest, acc =>
    if cap < acc + c then (acc + c, 1, true)
    else
      let r := streamWriteLoop cap rest (acc + c)
      (r.1, r.2.1 + 1, r.2.2)

/-- Result of a downloader together with whether its staged file is still on
disk when it returns. -/
structure DownloadResult where
  result : Except String String
  fileOnDisk : Bool
deriving Repr

/-- The streaming body of downloadPngOrJpgStream: the chunk loop runs; on
abort the pipeline fails, the partial file is unlinked and the wrapped
error is thrown; otherwise the staged path is returned with the file on
disk. -/
def streamBody (cap : Nat) (chunks : List Nat) (stagedPath : String) : DownloadResult :=
  if (streamWriteLoop cap chunks 0).2.2 then
    ⟨.error ("Error downloading image: " ++ abortMsg cap), false⟩
  else ⟨.ok stagedPath, true⟩

/-- downloadPngOrJpgStream from server.js: validation, then the fail fast
check of the declared content length header against the cap, then the
streamed transfer with the mid flight byte counter. -/
def downloadPngOrJpgStream (rawCT : String) (pathname : Option String)
    (contentLength : Option Nat) (cap : Nat) (chunks : List Nat)
    (stagedPath : String) : DownloadResult :=
  match streamValidate rawCT pathname with
  | .rejected m => ⟨.error m, false⟩
  | .accepted _ =>
    match contentLength with
    | some cl =>
      if cap < cl then ⟨.error (sizeMsg cl cap), false⟩
      else streamBody cap chunks stagedPath
    | none => streamBody cap chunks stagedPath

/-- downloadPngOrJpgByBuffer from server.js: validation, then a single size
check of the fully received body; the declared content length header is
never consulted. -/
def downloadPngOrJpgByBuffer (rawCT : String) (pathname : Option String)
    (contentLength : Option Nat) (bodyLen : Nat) (cap : Nat)
    (stagedPath : String) : Except String String :=
  match bufferValidate rawCT pathname with
  | .rejected m => .error m
  | .accepted _ =>
    if 0 < bodyLen ∧ cap < bodyLen then .error (sizeMsg bodyLen cap)
    else .ok stagedPath

/- Filesystem state threaded through the handlers: the temp namespace and
the output directory. -/

/-- Abstract filesystem state: the files of the temp namespace and the
entries of the output directory. -/
structure FS where
  tmp : List String
  videos : List String
deriving DecidableEq, Repr

/-- The artifact file test of clearVideoDir: the lowercased name ends with
the mp4 extension. -/
def isMp4 (name : String) : Bool :=
  decide (".mp4".data <:+ (name.data.map Char.toLower))

/-- clearVideoDir from server.js: every output directory entry whose
lowercased name ends with the mp4 extension is deleted. -/
def clearVideoDirFS (fs : FS) : FS :=
  { fs with videos := fs.videos.filter (fun n => !(isMp4 n)) }

/-- The artifact filename derived from the generated identifier. -/
def reelFilename (id : String) : String := "reel-" ++ id ++ ".mp4"

/-- HTTP response of a handler. -/
inductive HResp where
  | ok (filename : String)
  | badRequest (msg : String)
  | serverError (msg : String)
deriving DecidableEq, Repr

/-- A multipart upload as materialized by the upload middleware. -/
structure Upload where
  originalname : String
  path : String
deriving DecidableEq, Repr

/-- The tail shared by the simple handlers once a staged input exists:
purge the output directory, run the encoder, and on success write the
artifact and unlink the staged input; on encoder failure respond with the
error without touching the staged input. -/
def stagePurgeEncode (inPath : String) (encode : Except String String) (fs : FS) :
    HResp × FS :=
  let fs1 := clearVideoDirFS fs
  match encode with
  | .error e => (.serverError e, fs1)
  | .ok id =>
    let f := reelFilename id
    let fs2 : FS := { fs1 with videos := f :: fs1.videos }
    let fs3 : FS := { fs2 with tmp := fs2.tmp.erase inPath }
    (.ok f, fs3)

/-- The POST image-to-video-buffer handler: a url parameter takes the
buffered download as the staged input, otherwise an upload is extension
checked and used in place, otherwise the request is a client error; the
download on success adds the staged file to the temp namespace. -/
def bufferHandler (urlParam : Option String) (filePart : Option Upload)
    (dl : Except String String) (encode : Except String String) (fs0 : FS) :
    HResp × FS :=
  match urlParam with
  | some _ =>
    match dl with
    | .error e => (.serverError e, fs0)
    | .ok inPath =>
      stagePurgeEncode inPath encode { fs0 with tmp := inPath :: fs0.tmp }
  | none =>
    match filePart with
    | some f =>
      let ext := lowerStr (extnameOf f.originalname)
      if allowedExts.contains ext then stagePurgeEncode f.path encode fs0
      else (.serverError "Only PNG or JPG files are allowed.", fs0)
    | none => (.badRequest "Provide ?url=PNG/JPG or multipart \"file\"", fs0)

/-- Events of one request against the shared directories, in order. -/
inductive Ev where
  | staged (p : String)
  | purge
  | wroteArtifact (f : String)
  | unlinkedInput (p : String)
deriving DecidableEq, Repr

/-- The POST image-to-video-stream handler, instrumented with its event
trace: the url is required, the streamed download stages the input, the
output directory is purged, the encoder writes the artifact and the staged
input is unlinked. -/
def streamHandler (urlParam : Option String) (dl : Except String String)
    (encode : Except String String) (fs0 : FS) : HResp × FS × List Ev :=
  match urlParam with
  | none => (.badRequest "Provide ?url=PNG/JPG via ?url=...", fs0, [])
  | some _ =>
    match dl with
    | .error e => (.serverError e, fs0, [])
    | .ok inPath =>
      let fs1 : FS := { fs0 with tmp := inPath :: fs0.tmp }
      let fs2 := clearVideoDirFS fs1
      match encode with
      | .error e => (.serverError e, fs2, [.staged inPath, .purge])
      | .ok id =>
        let f := reelFilename id
        let fs3 : FS := { fs2 with videos := f :: fs2.videos }
        let fs4 : FS := { fs3 with tmp := fs3.tmp.erase inPath }
        (.ok f, fs4, [.staged inPath, .purge, .wroteArtifact f, .unlinkedInput inPath])

/-- imageToVideoCompressedWithIntro from server.js: the main clip is
written to a temp file; with an intro image and a positive intro duration
the intro clip is written to a second temp file, a concat list file is
written and the concat step produces the final artifact, removing the list
file on both of its exits and the intro and main temp clips on success
only; without an intro the main temp clip is copied to the final artifact.
Failures of the clip builds or of the concat step propagate without
removing the temp clips. -/
def imageToVideoCompressedWithIntro (fs : FS) (hasIntro : Bool) (introDuration : Nat)
    (mainOk introOk concatOk : Bool)
    (tmpIntro tmpMain listPath finalId : String) :
    Except (String × FS) (String × FS) :=
  match mainOk with
  | false => .error ("main clip encode failed", fs)
  | true =>
    let fs1 : FS := { fs with tmp := tmpMain :: fs.tmp }
    if hasIntro = true ∧ 0 < introDuration then
      match introOk with
      | false => .error ("intro clip encode failed", fs1)
      | true =>
        let fs2 : FS := { fs1 with tmp := tmpIntro :: fs1.tmp }
        let fs3 : FS := { fs2 with tmp := listPath :: fs2.tmp }
        match concatOk with
        | false => .error ("concat failed", { fs3 with tmp := fs3.tmp.erase listPath })
        | true =>
          let fs4 : FS := { fs3 with tmp := fs3.tmp.erase listPath }
          let fs5 : FS := { fs4 with videos := reelFilename finalId :: fs4.videos }
          let fs6 : FS := { fs5 with tmp := fs5.tmp.erase tmpIntro }
          let fs7 : FS := { fs6 with tmp := fs6.tmp.erase tmpMain }
          .ok (reelFilename finalId, fs7)
    else
      let fs2 : FS := { fs1 with videos := reelFilename finalId :: fs1.videos }
      let fs3 : FS := { fs2 with tmp := fs2.tmp.erase tmpMain }
      .ok (reelFilename finalId, fs3)

/-- The tail of the stream-compressed handler after the downloads: purge,
run the composite encoder, and on success unlink the staged main input and
the staged intro input; on failure respond without unlinking them. -/
def compressedTail (mainPath : String) (introPath : Option String)
    (introDuration : Option Int) (mainOk introOk concatOk : Bool)
    (tmpIntro tmpMain listPath finalId : String) (fs : FS) : HResp × FS :=
  let fs2 := clearVideoDirFS fs
  let introDurNat : Nat :=
    match introDuration with
    | some v => v.toNat
    | none => 0
  match imageToVideoCompressedWithIntro fs2 introPath.isSome introDurNat
      mainOk introOk concatOk tmpIntro tmpMain listPath finalId with
  | .error (e, fsE) => (.serverError e, fsE)
  | .ok (fname, fsO) =>
    let fsA : FS := { fsO with tmp := fsO.tmp.erase mainPath }
    let fsB : FS :=
      match introPath with
      | some p => { fsA with tmp := fsA.tmp.erase p }
      | none => fsA
    (.ok fname, fsB)

/-- The POST image-to-video-stream-compressed handler: the url is required,
the main image and the optional intro image are downloaded by stream, the
intro duration parameter is clamped to the interval from 0 to 1, and the
composite encoder runs after the purge. -/
def streamCompressedHandler (urlParam introUrlParam : Option String)
    (dlMain dlIntro : Except String String)
    (introDurationRaw : Option String)
    (mainOk introOk concatOk : Bool)
    (tmpIntro tmpMain listPath finalId : String) (fs0 : FS) : HResp × FS :=
  let introDuration := jsMin (jsMax (jsParseInt (orDefault introDurationRaw "0")) 0) 1
  match urlParam with
  | none => (.badRequest "Provide ?url=PNG/JPG via ?url=...", fs0)
  | some _ =>
    match dlMain with
    | .error e => (.serverError e, fs0)
    | .ok mainPath =>
      let fs1 : FS := { fs0 with tmp := mainPath :: fs0.tmp }
      match introUrlParam with
      | some _ =>
        match dlIntro with
        | .error e => (.serverError e, fs1)
        | .ok introPath =>
          compressedTail mainPath (some introPath) introDuration mainOk introOk concatOk
            tmpIntro tmpMain listPath finalId { fs1 with tmp := introPath :: fs1.tmp }
      | none =>
        compressedTail mainPath none introDuration mainOk introOk concatOk
          tmpIntro tmpMain listPath finalId fs1

/- Encoder filter graphs. -/

/-- The video filter list built by imageToVideo in server.js, in the order
the code lists the stages. -/
def imageToVideoFilters (width height fps : Nat) : List String :=
  ["scale=" ++ toString width ++ ":" ++ toString height ++ ":force_original_aspect_ratio=decrease",
   "pad=" ++ toString width ++ ":" ++ toString height ++ ":(ow-iw)/2:(oh-ih)/2:color=black",
   "fps=" ++ toString fps]

/-- The video filter list built by makeStillClip in server.js, in the order
the code lists the stages. -/
def makeStillClipFilters (width height fps : Nat) : List String :=
  ["scale=" ++ toString width ++ ":" ++ toString height ++ ":force_original_aspect_ratio=decrease",
   "pad=" ++ toString width ++ ":" ++ toString height ++ ":(ow-iw)/2:(oh-ih)/2:color=black",
   "fps=" ++ toString fps]

/-- Pipeline stages as the spec describes them: a decrease fit scale into
the target box, a pad to the exact target dimensions centered on a fixed
black background, and a frame rate resample. -/
inductive FilterStage where
  | scaleDecrease (w h : Nat)
  | padCenterBlack (w h : Nat)
  | fpsResample (f : Nat)
deriving DecidableEq, Repr

/-- Rendering of a spec pipeline stage to the encoder filter syntax. -/
def FilterStage.render : FilterStage → String
  | .scaleDecrease w h =>
    "scale=" ++ toString w ++ ":" ++ toString h ++ ":force_original_aspect_ratio=decrease"
  | .padCenterBlack w h =>
    "pad=" ++ toString w ++ ":" ++ toString h ++ ":(ow-iw)/2:(oh-ih)/2:color=black"
  | .fpsResample f => "fps=" ++ toString f

/-- The fixed pipeline of the spec, in the stated order: scale, pad,
frame rate resample. -/
def specFilterPipeline (w h f : Nat) : List FilterStage :=
  [.scaleDecrease w h, .padCenterBlack w h, .fpsResample f]

/- Health endpoint. -/

/-- The JSON payload of the health endpoint. -/
structure HealthPayload where
  ok : Bool
  memoryUsage : Nat
deriving DecidableEq, Repr

/-- The GET health handler of the latest revision: it reports ok together
with a snapshot of the current process memory usage. -/
def healthHandler (memSnapshot : Nat) : HealthPayload :=
  { ok := true, memoryUsage := memSnapshot }

/- Helper lemmas. -/

/-- Every generated artifact name matches the purge pattern. -/
theorem isMp4_reel (id : String) : isMp4 (reelFilename id) = true := by
  have h1 : (reelFilename id).data = ("reel-" ++ id).data ++ ".mp4".data := rfl
  have h2 : List.map Char.toLower ".mp4".data = ".mp4".data := by decide
  simp only [isMp4, h1, List.map_append, h2, decide_eq_true_eq]
  exact List.suffix_append _ _

/-- After the purge no entry matching the artifact pattern remains. -/
theorem filter_purged (l : List String) :
    (l.filter (fun n => !(isMp4 n))).filter (fun n => isMp4 n) = [] := by
  induction l with
  | nil => rfl
  | cons a t ih => cases h : isMp4 a <;> simp [List.filter_cons, h, ih]

/-- The chunk loop aborts exactly when the total size exceeds the cap. -/
theorem streamWriteLoop_abort_iff (cap : Nat) (l : List Nat) :
    ∀ acc : Nat, acc ≤ cap →
      ((streamWriteLoop cap l acc).2.2 = true ↔ cap < acc + l.sum) := by
  induction l with
  | nil =>
    intro acc hacc
    simp [streamWriteLoop]
    omega
  | cons c rest ih =>
    intro acc hacc
    by_cases h : cap < acc + c
    · simp [streamWriteLoop, h, List.sum_cons]
      omega
    · simp only [streamWriteLoop, if_neg h, List.sum_cons]
      rw [ih (acc + c) (by omega)]
      omega

/-- An aborting run of the chunk loop consumed at least one chunk. -/
theorem streamWriteLoop_abort_pos (cap : Nat) (l : List Nat) :
    ∀ acc : Nat, (streamWriteLoop cap l acc).2.2 = true →
      1 ≤ (streamWriteLoop cap l acc).2.1 := by
  induction l with
  | nil =>
    intro acc hab
    simp [streamWriteLoop] at hab
  | cons c rest ih =>
    intro acc hab
    by_cases h : cap < acc + c
    · simp [streamWriteLoop, h]
    · simp only [streamWriteLoop, if_neg h]
      omega

/-- An aborting run of the chunk loop stops at the first chunk whose
arrival pushes the running total past the cap. -/
theorem streamWriteLoop_abort_take (cap : Nat) (l : List Nat) :
    ∀ acc : Nat, acc ≤ cap → (streamWriteLoop cap l acc).2.2 = true →
      cap < acc + (l.take (streamWriteLoop cap l acc).2.1).sum ∧
      acc + (l.take ((streamWriteLoop cap l acc).2.1 - 1)).sum ≤ cap := by
  induction l with
  | nil =>
    intro acc hacc hab
    simp [streamWriteLoop] at hab
  | cons c rest ih =>
    intro acc hacc hab
    by_cases h : cap < acc + c
    · simp [streamWriteLoop, h]
      omega
    · have hacc2 : acc + c ≤ cap := by omega
      simp only [streamWriteLoop, if_neg h] at hab ⊢
      obtain ⟨h1, h2⟩ := ih (acc + c) hacc2 hab
      have hpos := streamWriteLoop_abort_pos cap rest (acc + c) hab
      obtain ⟨j, hj⟩ : ∃ j, (streamWriteLoop cap rest (acc + c)).2.1 = j + 1 :=
        ⟨(streamWriteLoop cap rest (acc + c)).2.1 - 1, by omega⟩
      rw [hj] at h1 h2 ⊢
      simp only [Nat.add_sub_cancel, List.take_succ_cons, List.sum_cons] at h1 h2 ⊢
      constructor <;> omega

/- Claim theorems. -/

/-- Claim C1, counterexample: a request to the buffer endpoint whose
download stages an input and whose encode step rejects answers with the
server error while the staged input file is still in the temp namespace,
so the staged input is not removed on the failure exit of the encode
step. -/
theorem c1_counterexample :
    bufferHandler (some "http://example.com/a.png") none (.ok "/tmp/staged.png")
        (.error "encode failed") ⟨[], []⟩ =
      (.serverError "encode failed", ⟨["/tmp/staged.png"], []⟩) := rfl

/-- Claim C1, amended: the handlers remove the staged input on the success
exit of the encode step, but on the failure exit the staged input survives
the request, both in the buffer endpoint and in the stream-compressed
endpoint. -/
theorem c1_staged_release_by_exit
    (u inPath id eMsg mainPath tmpIntro tmpMain listPath finalId : String)
    (fs0 fsC : FS) (h1 : inPath ∉ fs0.tmp) (h2 : mainPath ∉ fsC.tmp) :
    inPath ∉ (bufferHandler (some u) none (.ok inPath) (.ok id) fs0).2.tmp ∧
    inPath ∈ (bufferHandler (some u) none (.ok inPath) (.error eMsg) fs0).2.tmp ∧
    mainPath ∉ (streamCompressedHandler (some u) none (.ok mainPath) (.error "unused")
        none true true true tmpIntro tmpMain listPath finalId fsC).2.tmp ∧
    mainPath ∈ (streamCompressedHandler (some u) none (.ok mainPath) (.error "unused")
        none false true true tmpIntro tmpMain listPath finalId fsC).2.tmp := by
  refine ⟨?_, ?_, ?_, ?_⟩
  · show inPath ∉ (inPath :: fs0.tmp).erase inPath
    rw [List.erase_cons_head]
    exact h1
  · show inPath ∈ inPath :: fs0.tmp
    exact List.mem_cons_self _ _
  · show mainPath ∉ ((tmpMain :: mainPath :: fsC.tmp).erase tmpMain).erase mainPath
    rw [List.erase_cons_head, List.erase_cons_head]
    exact h2
  · show mainPath ∈ mainPath :: fsC.tmp
    exact List.mem_cons_self _ _

/-- Claim C1, witness for the amended theorem at concrete inputs. -/
theorem c1_witness :
    "/tmp/in.png" ∉ (⟨[], []⟩ : FS).tmp ∧
    "/tmp/mainstage.png" ∉ (⟨[], []⟩ : FS).tmp ∧
    ("/tmp/in.png" ∉ (bufferHandler (some "u") none (.ok "/tmp/in.png") (.ok "id")
        ⟨[], []⟩).2.tmp ∧
      "/tmp/in.png" ∈ (bufferHandler (some "u") none (.ok "/tmp/in.png") (.error "boom")
        ⟨[], []⟩).2.tmp ∧
      "/tmp/mainstage.png" ∉ (streamCompressedHandler (some "u") none
        (.ok "/tmp/mainstage.png") (.error "unused") none true true true
        "/tmp/i.mp4" "/tmp/m.mp4" "/tmp/l.txt" "fid" ⟨[], []⟩).2.tmp ∧
      "/tmp/mainstage.png" ∈ (streamCompressedHandler (some "u") none
        (.ok "/tmp/mainstage.png") (.error "unused") none false true true
        "/tmp/i.mp4" "/tmp/m.mp4" "/tmp/l.txt" "fid" ⟨[], []⟩).2.tmp) :=
  ⟨by decide, by decide,
    c1_staged_release_by_exit "u" "/tmp/in.png" "id" "boom" "/tmp/mainstage.png"
      "/tmp/i.mp4" "/tmp/m.mp4" "/tmp/l.txt" "fid" ⟨[], []⟩ ⟨[], []⟩
      (by decide) (by decide)⟩

/-- Claim C2, counterexample: a response carrying the present but
disallowed content type text/html is accepted by both fetchers when the
URL pathname carries an allow listed extension, so a disallowed content
type is not rejected regardless of the extension. -/
theorem c2_counterexample :
    streamValidate "text/html" (some "/photo.jpg") = .accepted ".jpg" ∧
    bufferValidate "text/html" (some "/photo.jpg") = .accepted ".jpg" :=
  ⟨rfl, rfl⟩

/-- Claim C2, amended: for a content type that maps to no allowed extension
keyword and is not allow listed, both fetchers accept the source exactly
when the URL pathname extension is allow listed; rejection happens only
when the extension is missing as well. -/
theorem c2_ct_rejection_needs_bad_ext (rawCT : String) (pathname : Option String)
    (hct : pickExtFromCT (lowerStr rawCT) = none)
    (hal : contentTypeOf (lowerStr rawCT) ∉ allowedContentTypes) :
    (streamValidate rawCT pathname).isAccepted = (pickExtFromURL pathname).isSome ∧
    (bufferValidate rawCT pathname).isAccepted = (pickExtFromURL pathname).isSome := by
  cases hp : pickExtFromURL pathname with
  | none =>
    constructor
    · simp [streamValidate, hct, hal, hp, FetchCheck.isAccepted]
    · simp [bufferValidate, hct, hp, FetchCheck.isAccepted]
  | some e =>
    constructor
    · simp [streamValidate, hct, hal, hp, FetchCheck.isAccepted]
    · simp [bufferValidate, hct, hp, FetchCheck.isAccepted]

/-- Claim C2, witness for the amended theorem at concrete inputs. -/
theorem c2_witness :
    pickExtFromCT (lowerStr "text/plain") = none ∧
    contentTypeOf (lowerStr "text/plain") ∉ allowedContentTypes ∧
    ((streamValidate "text/plain" (some "/a.png")).isAccepted =
        (pickExtFromURL (some "/a.png")).isSome ∧
      (bufferValidate "text/plain" (some "/a.png")).isAccepted =
        (pickExtFromURL (some "/a.png")).isSome) :=
  ⟨by decide, by decide,
    c2_ct_rejection_needs_bad_ext "text/plain" (some "/a.png") (by decide) (by decide)⟩

/-- Claim C3, counterexample: in a multi-segment encode whose intro clip
build fails, the already built temporary main clip is left behind in the
temp namespace, so the intermediate files are not deleted on the failure
exit. -/
theorem c3_counterexample :
    imageToVideoCompressedWithIntro ⟨[], []⟩ true 1 true false true
        "/tmp/intro.mp4" "/tmp/main.mp4" "/tmp/list.txt" "id0" =
      .error ("intro clip encode failed", ⟨["/tmp/main.mp4"], []⟩) := rfl

/-- Claim C3, amended: on the success exit all three intermediates are
removed; on a concat failure the concat list file is removed, but the
temporary intro and main clips remain in the temp namespace. -/
theorem c3_intermediate_cleanup (fs0 : FS) (tmpIntro tmpMain listPath finalId : String)
    (dur : Nat) (hdur : 0 < dur)
    (hl1 : listPath ≠ tmpIntro) (hl2 : listPath ≠ tmpMain) (hl : listPath ∉ fs0.tmp) :
    imageToVideoCompressedWithIntro fs0 true dur true true true
        tmpIntro tmpMain listPath finalId =
      .ok (reelFilename finalId, ⟨fs0.tmp, reelFilename finalId :: fs0.videos⟩) ∧
    imageToVideoCompressedWithIntro fs0 true dur true true false
        tmpIntro tmpMain listPath finalId =
      .error ("concat failed", ⟨tmpIntro :: tmpMain :: fs0.tmp, fs0.videos⟩) ∧
    listPath ∉ (tmpIntro :: tmpMain :: fs0.tmp) ∧
    tmpIntro ∈ (tmpIntro :: tmpMain :: fs0.tmp) ∧
    tmpMain ∈ (tmpIntro :: tmpMain :: fs0.tmp) := by
  refine ⟨?_, ?_, ?_, ?_, ?_⟩
  · simp [imageToVideoCompressedWithIntro, hdur, List.erase_cons_head]
  · simp [imageToVideoCompressedWithIntro, hdur, List.erase_cons_head]
  · simp [List.mem_cons, hl1, hl2, hl]
  · exact List.mem_cons_self _ _
  · simp [List.mem_cons]

/-- Claim C3, witness for the amended theorem at concrete inputs. -/
theorem c3_witness :
    (0 : Nat) < 1 ∧ "/tmp/l.txt" ≠ "/tmp/i.mp4" ∧ "/tmp/l.txt" ≠ "/tmp/m.mp4" ∧
    "/tmp/l.txt" ∉ (⟨[], []⟩ : FS).tmp ∧
    (imageToVideoCompressedWithIntro ⟨[], []⟩ true 1 true true true
        "/tmp/i.mp4" "/tmp/m.mp4" "/tmp/l.txt" "fid" =
        .ok (reelFilename "fid", ⟨(⟨[], []⟩ : FS).tmp, reelFilename "fid" :: (⟨[], []⟩ : FS).videos⟩) ∧
      imageToVideoCompressedWithIntro ⟨[], []⟩ true 1 true true false
        "/tmp/i.mp4" "/tmp/m.mp4" "/tmp/l.txt" "fid" =
        .error ("concat failed", ⟨"/tmp/i.mp4" :: "/tmp/m.mp4" :: (⟨[], []⟩ : FS).tmp, (⟨[], []⟩ : FS).videos⟩) ∧
      "/tmp/l.txt" ∉ ("/tmp/i.mp4" :: "/tmp/m.mp4" :: (⟨[], []⟩ : FS).tmp) ∧
      "/tmp/i.mp4" ∈ ("/tmp/i.mp4" :: "/tmp/m.mp4" :: (⟨[], []⟩ : FS).tmp) ∧
      "/tmp/m.mp4" ∈ ("/tmp/i.mp4" :: "/tmp/m.mp4" :: (⟨[], []⟩ : FS).tmp)) :=
  ⟨by decide, by decide, by decide, by decide,
    c3_intermediate_cleanup ⟨[], []⟩ "/tmp/i.mp4" "/tmp/m.mp4" "/tmp/l.txt" "fid" 1
      (by decide) (by decide) (by decide) (by decide)⟩

/-- Claim C4: when the bytes received by the streamed fetch exceed the cap
the transfer aborts at the first chunk that pushes the running total past
the cap, the download fails with the wrapped size error, and the partial
staged file is no longer on disk. -/
theorem c4_stream_cap_abort (rawCT : String) (pathname : Option String)
    (contentLength : Option Nat) (cap : Nat) (chunks : List Nat)
    (stagedPath ext : String)
    (hacc : streamValidate rawCT pathname = .accepted ext)
    (hcl : ∀ cl, contentLength = some cl → cl ≤ cap)
    (hbig : cap < chunks.sum) :
    downloadPngOrJpgStream rawCT pathname contentLength cap chunks stagedPath =
      ⟨.error ("Error downloading image: " ++ abortMsg cap), false⟩ ∧
    cap < (chunks.take (streamWriteLoop cap chunks 0).2.1).sum ∧
    (chunks.take ((streamWriteLoop cap chunks 0).2.1 - 1)).sum ≤ cap := by
  have hab : (streamWriteLoop cap chunks 0).2.2 = true := by
    rw [streamWriteLoop_abort_iff cap chunks 0 (Nat.zero_le cap)]
    omega
  have htake := streamWriteLoop_abort_take cap chunks 0 (Nat.zero_le cap) hab
  refine ⟨?_, ?_, ?_⟩
  · cases hc : contentLength with
    | none => simp [downloadPngOrJpgStream, hacc, streamBody, hab]
    | some cl =>
      have hle : cl ≤ cap := hcl cl hc
      simp [downloadPngOrJpgStream, hacc, streamBody, hab, Nat.not_lt.mpr hle]
  · simpa using htake.1
  · simpa using htake.2

/-- Claim C4, witness at concrete inputs: cap five, chunks three and four. -/
theorem c4_witness :
    streamValidate "image/png" none = .accepted ".png" ∧
    (5 : Nat) < ([3, 4] : List Nat).sum ∧
    (downloadPngOrJpgStream "image/png" none none 5 [3, 4] "/tmp/w.png" =
        ⟨.error ("Error downloading image: " ++ abortMsg 5), false⟩ ∧
      5 < (([3, 4] : List Nat).take (streamWriteLoop 5 [3, 4] 0).2.1).sum ∧
      (([3, 4] : List Nat).take ((streamWriteLoop 5 [3, 4] 0).2.1 - 1)).sum ≤ 5) :=
  ⟨rfl, by decide,
    c4_stream_cap_abort "image/png" none none 5 [3, 4] "/tmp/w.png" ".png" rfl
      (fun cl h => Option.noConfusion h) (by decide)⟩

/-- Claim C5, counterexample: a buffered fetch whose declared content
length exceeds the cap while the actual body is small succeeds, so the
buffered downloader performs no fail fast check of the declared length
header. -/
theorem c5_counterexample :
    downloadPngOrJpgByBuffer "image/png" none (some (MAX_IMAGE_BYTES + 1)) 10
      MAX_IMAGE_BYTES "/tmp/x.png" = .ok "/tmp/x.png" := rfl

/-- Claim C5, amended: the buffered fetch enforces the cap only through the
actual received body size, failing with an error that reports both the
observed size and the limit, and its outcome is independent of the
declared content length header. -/
theorem c5_buffer_cap_actual_only (rawCT : String) (pathname : Option String)
    (cl1 cl2 : Option Nat) (bodyLen cap : Nat) (stagedPath ext : String)
    (hacc : bufferValidate rawCT pathname = .accepted ext)
    (hpos : 0 < bodyLen) (hbig : cap < bodyLen) :
    downloadPngOrJpgByBuffer rawCT pathname cl1 bodyLen cap stagedPath =
      .error (sizeMsg bodyLen cap) ∧
    downloadPngOrJpgByBuffer rawCT pathname cl1 bodyLen cap stagedPath =
      downloadPngOrJpgByBuffer rawCT pathname cl2 bodyLen cap stagedPath := by
  constructor
  · simp [downloadPngOrJpgByBuffer, hacc, hpos, hbig]
  · rfl

/-- Claim C5, witness for the amended theorem at concrete inputs. -/
theorem c5_witness :
    bufferValidate "image/png" none = .accepted ".png" ∧
    (0 : Nat) < 4 ∧ (3 : Nat) < 4 ∧
    (downloadPngOrJpgByBuffer "image/png" none (some 9) 4 3 "/tmp/w.png" =
        .error (sizeMsg 4 3) ∧
      downloadPngOrJpgByBuffer "image/png" none (some 9) 4 3 "/tmp/w.png" =
        downloadPngOrJpgByBuffer "image/png" none none 4 3 "/tmp/w.png") :=
  ⟨rfl, by decide, by decide,
    c5_buffer_cap_actual_only "image/png" none (some 9) none 4 3 "/tmp/w.png" ".png"
      rfl (by decide) (by decide)⟩

/-- Claim C6: in a successful stream request the events happen in the order
stage, purge, artifact write, input unlink, and afterwards the output
directory holds exactly one entry matching the artifact pattern. -/
theorem c6_purge_order_and_single_artifact (u inPath id : String) (fs0 : FS) :
    (streamHandler (some u) (.ok inPath) (.ok id) fs0).2.2 =
      [.staged inPath, .purge, .wroteArtifact (reelFilename id), .unlinkedInput inPath] ∧
    ((streamHandler (some u) (.ok inPath) (.ok id) fs0).2.1.videos.filter
        (fun n => isMp4 n)) = [reelFilename id] := by
  constructor
  · rfl
  · show ((reelFilename id :: fs0.videos.filter (fun n => !(isMp4 n))).filter
        (fun n => isMp4 n)) = [reelFilename id]
    simp [List.filter_cons, isMp4_reel, filter_purged]

/-- Claim C7, counterexample: a non numeric duration or fps yields NaN
after parseInt, and the clamping propagates it instead of coercing the
input to a bound or the default, so the normalized parameters hold an
invalid value. -/
theorem c7_counterexample :
    (parseParams (some "abc") (some "abc") none none).duration = none ∧
    (parseParams (some "abc") (some "abc") none none).fps = none :=
  ⟨rfl, rfl⟩

/-- Claim C7, amended: inputs that parse to a number are clamped to the
interval from 1 to 90 for the duration and 1 to 60 for the fps, and absent
width and height fall back to the defaults 1080 and 1920; non numeric
input however propagates NaN. -/
theorem c7_numeric_clamping (ds fsStr : String) (n m : Int)
    (hd : jsParseInt ds = some n) (hf : jsParseInt fsStr = some m) :
    parseParams (some ds) (some fsStr) none none =
      { duration := some (min (max n 1) 90), fps := some (min (max m 1) 60),
        width := some 1080, height := some 1920 } := by
  have hne : jsParseInt "" = (none : Option Int) := rfl
  have hde : ds ≠ "" := by
    intro h
    rw [h, hne] at hd
    exact Option.noConfusion hd
  have hfe : fsStr ≠ "" := by
    intro h
    rw [h, hne] at hf
    exact Option.noConfusion hf
  simp only [parseParams, orDefault]
  rw [if_neg hde, if_neg hfe, hd, hf]
  rfl

/-- Claim C7, witness for the amended theorem at concrete inputs. -/
theorem c7_witness :
    jsParseInt "95" = some 95 ∧ jsParseInt "0" = some 0 ∧
    parseParams (some "95") (some "0") none none =
      { duration := some (min (max 95 1) 90), fps := some (min (max 0 1) 60),
        width := some 1080, height := some 1920 } :=
  ⟨rfl, rfl, c7_numeric_clamping "95" "0" 95 0 rfl rfl⟩

/-- Claim C8: for every encode invocation the filter list is exactly the
rendering of the spec pipeline, that is the decrease fit scale stage, then
the centered black pad stage, then the frame rate stage, in this order,
both in imageToVideo and in makeStillClip. -/
theorem c8_filter_pipeline (width height fps : Nat) :
    imageToVideoFilters width height fps =
      (specFilterPipeline width height fps).map FilterStage.render ∧
    makeStillClipFilters width height fps =
      (specFilterPipeline width height fps).map FilterStage.render :=
  ⟨rfl, rfl⟩

/-- Claim C9, counterexample: two invocations of the health handler under
different process memory states produce different payloads, so the
liveness probe does not return one constant payload. -/
theorem c9_counterexample : healthHandler 0 ≠ healthHandler 1 := by decide

/-- Claim C9, amended: every health response carries the constant ok flag,
but the payload also embeds the current process memory usage and therefore
varies with process state. -/
theorem c9_health_ok_flag (memSnapshot : Nat) : (healthHandler memSnapshot).ok = true := rfl

/-- Claim C10: when both a url parameter and an upload are supplied, the
buffer handler behaves exactly as if no upload were present, so the upload
is never extension validated and never used as the input, and its temp
file survives the request. -/
theorem c10_url_precedence (u : String) (f : Upload) (dl encode : Except String String)
    (fs0 : FS) (hmem : f.path ∈ fs0.tmp) :
    bufferHandler (some u) (some f) dl encode fs0 =
      bufferHandler (some u) none dl encode fs0 ∧
    f.path ∈ (bufferHandler (some u) (some f) dl encode fs0).2.tmp := by
  refine ⟨rfl, ?_⟩
  cases dl with
  | error e => exact hmem
  | ok p =>
    cases encode with
    | error e =>
      show f.path ∈ p :: fs0.tmp
      exact List.mem_cons_of_mem _ hmem
    | ok id =>
      show f.path ∈ (p :: fs0.tmp).erase p
      rw [List.erase_cons_head]
      exact hmem

/-- Claim C10, witness at concrete inputs: a gif upload alongside a url. -/
theorem c10_witness :
    (⟨"photo.gif", "/tmp/upload123"⟩ : Upload).path ∈
      (⟨["/tmp/upload123"], []⟩ : FS).tmp ∧
    (bufferHandler (some "u") (some ⟨"photo.gif", "/tmp/upload123"⟩)
        (.ok "/tmp/dl.png") (.ok "id1") ⟨["/tmp/upload123"], []⟩ =
      bufferHandler (some "u") none (.ok "/tmp/dl.png") (.ok "id1")
        ⟨["/tmp/upload123"], []⟩ ∧
      (⟨"photo.gif", "/tmp/upload123"⟩ : Upload).path ∈
        (bufferHandler (some "u") (some ⟨"photo.gif", "/tmp/upload123"⟩)
          (.ok "/tmp/dl.png") (.ok "id1") ⟨["/tmp/upload123"], []⟩).2.tmp) :=
  ⟨by decide,
    c10_url_precedence "u" ⟨"photo.gif", "/tmp/upload123"⟩ (.ok "/tmp/dl.png")
      (.ok "id1") ⟨["/tmp/upload123"], []⟩ (by decide)⟩

end Img2Reel
